import Mathlib

/-!
Shallow embedding of `contrib/electrum-plugin/bwt.py` (the bwt Electrum
plugin).  Python strings are modelled as `List Char` (a Python `str` is a
sequence of code points); the plugin object's mutable attributes become a
`PluginState` record, externally observable process actions become an
explicit `Effect` list, and the log-classification loop `proc_logger`
becomes a pure function from the list of decoded stream lines to the list
of dispatched `(level, pkg, msg)` triples.
-/

namespace Bwt

/-- Python's whitespace class, as used by `str.strip()` (ASCII part). -/
def isPySpace (c : Char) : Bool :=
  c == ' ' || c == '\t' || c == '\n' || c == '\r' || c == '\x0b' || c == '\x0c'

/-- Remove trailing whitespace characters (the right half of `str.strip()`). -/
def dropTrailWS : List Char → List Char
  | [] => []
  | c :: rest =>
    match dropTrailWS rest with
    | [] => if isPySpace c then [] else [c]
    | r => c :: r

/-- Python `str.strip()`: drop leading and trailing whitespace. -/
def pyStrip (l : List Char) : List Char :=
  dropTrailWS (l.dropWhile isPySpace)

/-- Python `str.lower()` (ASCII case fold, which is all the plugin needs). -/
def pyLower (l : List Char) : List Char :=
  l.map Char.toLower

/-- Python `s.partition(sep)` for a one-character separator, keeping the
parts the plugin uses: the text before the first occurrence and the text
after it (when the separator is absent, Python returns `(s, rest = "")`). -/
def pyPartition (sep : Char) : List Char → List Char × List Char
  | [] => ([], [])
  | c :: rest =>
    if c == sep then ([], rest)
    else
      let p := pyPartition sep rest
      (c :: p.1, p.2)

/-- Python `sub in s`: substring containment test. -/
def hasSub (pat : List Char) : List Char → Bool
  | [] => pat.isEmpty
  | c :: rest => pat.isPrefixOf (c :: rest) || hasSub pat rest

/-- Python `s.split(' ')` with an explicit single-space separator: splits at
every space and keeps empty tokens. -/
def pySplitSp : List Char → List (List Char)
  | [] => [[]]
  | c :: rest =>
    if c == ' ' then [] :: pySplitSp rest
    else
      match pySplitSp rest with
      | [] => [[c]]
      | t :: ts => (c :: t) :: ts

/-- A dispatched log event: `(level, pkg, msg)` as handed to `log_handler`. -/
structure LogEvent where
  level : List Char
  pkg : List Char
  msg : List Char
deriving DecidableEq

/-- The per-line body of `proc_logger`: decode/strip the raw line, then
classify it by the three-branch heuristic and build the event passed to
`log_handler`.  Mirrors lines 139-151 of `bwt.py`. -/
def classifyLine (raw : List Char) : LogEvent :=
  let line := pyStrip raw
  if hasSub "::".data line && line.contains '>' then
    let p1 := pyPartition ' ' line
    let p2 := pyPartition '>' p1.2
    ⟨p1.1, pyStrip p2.1, pyStrip p2.2⟩
  else if ("error: ".data).isPrefixOf (pyLower line) then
    ⟨"ERROR".data, "bwt".data, line.drop 7⟩
  else
    ⟨"INFO".data, "bwt".data, line⟩

/-- `proc_logger`'s loop: `for line in iter(proc.stdout.readline, b'')`.
The stream is the list of decoded raw lines; reading an empty raw line is
the sentinel that ends the loop, and every other line is classified and
dispatched.  Returns the list of dispatched events in order. -/
def procLogger : List (List Char) → List LogEvent
  | [] => []
  | l :: rest => if l.isEmpty then [] else classifyLine l :: procLogger rest

/-- An Electrum wallet as the plugin sees it: an object identity (`wid`,
standing for the Python object's identity, which is what membership of the
`self.wallets` set is decided by) and the list returned by
`get_master_public_keys()`. -/
structure Wallet where
  wid : Nat
  mpks : List String
deriving DecidableEq

/-- A spawned worker process: the `Popen` handle, carrying the argument
vector it was launched with. -/
structure ProcHandle where
  pid : Nat
  args : List String
deriving DecidableEq

/-- The plugin object's mutable attributes (from `__init__` and `start`).
`rpc_port` is `none` until `start` first assigns it. -/
structure PluginState where
  enabled : Bool
  wallets : List Wallet
  bitcoind_url : String
  bitcoind_dir : String
  bitcoind_wallet : Option String
  bitcoind_cred : Option String
  rescan_since : String
  custom_opt : Option String
  socket_path : Option String
  verbose : Nat
  proc : Option ProcHandle
  rpc_port : Option Nat
deriving DecidableEq

/-- Ambient inputs consumed by `start`: the network name computed by
`get_network_name()`, the port returned by `free_port()` and the pid of the
process `Popen` creates. -/
structure Env where
  network : String
  freshPort : Nat
  freshPid : Nat
deriving DecidableEq

/-- Externally observable process actions performed by the plugin. -/
inductive Effect where
  | spawnProc (args : List String)
  | termProc (pid : Nat)
deriving DecidableEq

/-- Python truthiness of a `config.get` result: `None` and `''` are falsy. -/
def pyTruthy : Option String → Bool
  | none => false
  | some s => !s.data.isEmpty

/-- `custom_opt.split(' ')` lifted back to `String` tokens. -/
def pySplit (s : String) : List String :=
  (pySplitSp s.data).map fun cs => ⟨cs⟩

/-- The argument vector built by `BwtPlugin.start` (lines 49-75 of
`bwt.py`), excluding the leading binary path. -/
def buildArgs (net : String) (st : PluginState) (port : Nat) : List String :=
  let args := ["--network", net,
               "--bitcoind-url", st.bitcoind_url,
               "--bitcoind-dir", st.bitcoind_dir,
               "--electrum-rpc-addr", "127.0.0.1:" ++ toString port]
  let args := if pyTruthy st.bitcoind_cred then
      args ++ ["--bitcoind-cred", st.bitcoind_cred.getD ""] else args
  let args := if pyTruthy st.bitcoind_wallet then
      args ++ ["--bitcoind-wallet", st.bitcoind_wallet.getD ""] else args
  let args := if pyTruthy st.socket_path then
      args ++ ["--unix-listener-path", st.socket_path.getD ""] else args
  let args := args ++ st.wallets.flatMap
      (fun w => w.mpks.flatMap fun x => ["--xpub", x ++ ":" ++ st.rescan_since])
  let args := args ++ List.replicate st.verbose "-v"
  let args := if pyTruthy st.custom_opt then
      args ++ pySplit (st.custom_opt.getD "") else args
  args

/-- `BwtPlugin.stop`: terminate the process if one is held and drop the
handle; a no-op when already stopped. -/
def stop (st : PluginState) : PluginState × List Effect :=
  match st.proc with
  | some h => ({ st with proc := none }, [.termProc h.pid])
  | none => (st, [])

/-- `BwtPlugin.start` (lines 44-91 of `bwt.py`): early return when
disabled or when the wallet set is empty; otherwise pick a fresh port,
build the argument vector, stop any previous worker and spawn a new one. -/
def start (env : Env) (st : PluginState) : PluginState × List Effect :=
  if !st.enabled || st.wallets.isEmpty then (st, [])
  else
    let st := { st with rpc_port := some env.freshPort }
    let args := buildArgs env.network st env.freshPort
    let p := stop st
    ({ p.1 with proc := some ⟨env.freshPid, args⟩ }, p.2 ++ [.spawnProc args])

/-- `BwtPlugin.load_wallet` hook (lines 109-117): wallets without master
public keys are skipped; otherwise the wallet object is added to the set
and `start()` runs exactly when the set's size changed. -/
def load_wallet (env : Env) (w : Wallet) (st : PluginState) :
    PluginState × List Effect :=
  if !w.mpks.isEmpty then
    let num := st.wallets.length
    let ws := if w ∈ st.wallets then st.wallets else st.wallets ++ [w]
    let st := { st with wallets := ws }
    if ws.length ≠ num then start env st else (st, [])
  else (st, [])

/-- `BwtPlugin.close_wallet` hook (lines 119-123): remove the wallet from
the set; stop the worker only when the set became empty. -/
def close_wallet (w : Wallet) (st : PluginState) : PluginState × List Effect :=
  let ws := st.wallets.filter fun v => !(v == w)
  let st := { st with wallets := ws }
  if ws.isEmpty then stop st else (st, [])

/-- The two host-configuration keys `BwtPlugin.close` touches.  A value of
`none` models both an absent key and a key explicitly set to `None`
(Python `config.get` returns `None` in both cases). -/
structure Config where
  oneserver : Option Bool
  bwt_was_oneserver : Option Bool
deriving DecidableEq

/-- `BwtPlugin.close` (lines 125-133): always stop, then restore the saved
`oneserver` preference when one was saved and clear the slot. -/
def close (st : PluginState) (cfg : Config) :
    PluginState × Config × List Effect :=
  let p := stop st
  match cfg.bwt_was_oneserver with
  | some b =>
      (p.1, { cfg with oneserver := some b, bwt_was_oneserver := none }, p.2)
  | none => (p.1, cfg, p.2)

/-- The readiness marker checked by `BwtPlugin.handle_log`. -/
def rpcReadyMarker : List Char := "Electrum RPC server running".data

/-- State observed by the readiness machinery: how many `start()` calls
have happened (`gen`, numbering the spawned logger threads), and how many
times `set_server()` has been invoked (`handoffs`). -/
structure SupState where
  gen : Nat
  handoffs : Nat
deriving DecidableEq

/-- `BwtPlugin.handle_log` (lines 135-137): call `set_server()` whenever
the message starts with the readiness marker.  The code consults nothing
else — not which logger thread delivered the event, not whether a handoff
already happened. -/
def handle_log (st : SupState) (_level _pkg msg : List Char) : SupState :=
  if rpcReadyMarker.isPrefixOf msg then { st with handoffs := st.handoffs + 1 }
  else st

/-- An event in the life of the plugin as seen by the readiness machinery:
a `start()` call, or a log event delivered by the logger thread spawned by
the `srcGen`-th start. -/
inductive PEvent where
  | start
  | log (srcGen : Nat) (level pkg msg : List Char)
deriving DecidableEq

/-- One event's effect on the observed state.  A `start` begins a new
generation; a delivered log event goes through `handle_log`, which ignores
`srcGen` entirely. -/
def stepEvent (st : SupState) : PEvent → SupState
  | .start => { st with gen := st.gen + 1 }
  | .log _ lv pk m => handle_log st lv pk m

/-- Run a sequence of starts and log events from the initial state. -/
def runEvents (evs : List PEvent) : SupState :=
  evs.foldl stepEvent ⟨0, 0⟩

/-- A trace is well formed when every log event is delivered by a logger
thread that exists: `1 ≤ srcGen ≤` the number of starts so far. -/
def validEventsFrom : Nat → List PEvent → Bool
  | _, [] => true
  | g, .start :: rest => validEventsFrom (g + 1) rest
  | g, .log sg _ _ _ :: rest => decide (1 ≤ sg) && decide (sg ≤ g) && validEventsFrom g rest

/-- Does an event match the readiness marker (a `log` whose message starts
with it)? -/
def isReadyLog : PEvent → Bool
  | .start => false
  | .log _ _ _ m => rpcReadyMarker.isPrefixOf m

/-- Modelled from the spec: the §4.4 `onLogEvent` discipline, which the
code does not implement — events of a superseded generation are discarded
and the handoff fires at most once per generation (`fired` resets on each
start).  Used only to compare the code's behaviour against the spec's. -/
structure SpecSupState where
  gen : Nat
  fired : Bool
  handoffs : Nat
deriving DecidableEq

/-- Modelled from the spec: one step of the §4.4 state machine. -/
def specStepEvent (st : SpecSupState) : PEvent → SpecSupState
  | .start => { st with gen := st.gen + 1, fired := false }
  | .log sg _ _ m =>
    if sg == st.gen && rpcReadyMarker.isPrefixOf m && !st.fired then
      { st with fired := true, handoffs := st.handoffs + 1 }
    else st

/-- Modelled from the spec: run the §4.4 machine over a trace. -/
def specRunEvents (evs : List PEvent) : SpecSupState :=
  evs.foldl specStepEvent ⟨0, false, 0⟩

/-- Claim C1 as stated: on every well-formed trace, the code's number of
readiness handoffs agrees with the spec's generation-guarded, at-most-once
discipline. -/
def claimC1 : Prop :=
  ∀ evs : List PEvent, validEventsFrom 0 evs = true →
    (runEvents evs).handoffs = (specRunEvents evs).handoffs

/-- Modelled from the spec: the §4.3 rule-1 classifier, which splits off
the level, *discards the timestamp segment*, then splits the remainder on
the first `>`.  Used only to compare against `classifyLine`. -/
def specClassifyMarker (raw : List Char) : LogEvent :=
  let line := pyStrip raw
  let p1 := pyPartition ' ' line
  let pts := pyPartition ' ' p1.2
  let p2 := pyPartition '>' pts.2
  ⟨p1.1, pyStrip p2.1, pyStrip p2.2⟩

/-- The example log line of claim C2. -/
def exLine : List Char := "DBG 12:00:00 electrs_like::sync > synced to height 100".data

/-- Has no leading whitespace character. -/
def noLeadWS : List Char → Bool
  | [] => true
  | c :: _ => !isPySpace c

/-- Has no trailing whitespace character. -/
def noTrailWS : List Char → Bool
  | [] => true
  | [c] => !isPySpace c
  | _ :: rest => noTrailWS rest

/-- The set `S` of key-material groups: groups are keyed by the root
string, so `S` is the deduplicated list of all exported roots. -/
def keyRoots (ws : List Wallet) : List String :=
  (ws.flatMap Wallet.mpks).dedup

/-- A benign configuration snapshot used to state claims about the wallet
set: realistic defaults, no optional flags, no free-form extra options. -/
def sampleSt (ws : List Wallet) (rescan : String) : PluginState :=
  { enabled := true
    wallets := ws
    bitcoind_url := "http://localhost:18443/"
    bitcoind_dir := "/home/user/.bitcoin"
    bitcoind_wallet := none
    bitcoind_cred := none
    rescan_since := rescan
    custom_opt := none
    socket_path := none
    verbose := 0
    proc := none
    rpc_port := none }

/-- Claim C2 as stated: on every line with the `::` marker and a `>`
separator, the classifier agrees with the spec's rule 1 (which discards
the timestamp segment). -/
def claimC2 : Prop :=
  ∀ raw : List Char,
    hasSub "::".data (pyStrip raw) = true →
    (pyStrip raw).contains '>' = true →
    classifyLine raw = specClassifyMarker raw

/-- Claim C3 as stated: the argument vector holds exactly `|S|`
key-material flags and each root of `S` appears exactly once among them. -/
def claimC3 : Prop :=
  ∀ (ws : List Wallet) (rescan : String) (port : Nat),
    List.count "--xpub" (buildArgs "regtest" (sampleSt ws rescan) port) =
      (keyRoots ws).length ∧
    ∀ r ∈ keyRoots ws,
      List.count (r ++ ":" ++ rescan)
        (buildArgs "regtest" (sampleSt ws rescan) port) = 1

/-- Claim C4 as stated (the half the code violates): loading a member all
of whose exportable roots are already present in the tracked set triggers
no restart and leaves the state unchanged. -/
def claimC4 : Prop :=
  ∀ (env : Env) (st : PluginState) (w : Wallet),
    w.mpks ≠ [] →
    (∀ x ∈ w.mpks, x ∈ st.wallets.flatMap Wallet.mpks) →
    load_wallet env w st = (st, [])

/-- Claim C5 as stated: blank lines are ignored, so the number of
dispatched events equals the number of non-blank lines read before the
end-of-stream sentinel. -/
def claimC5 : Prop :=
  ∀ stream : List (List Char),
    (procLogger stream).length =
      ((stream.takeWhile fun l => !l.isEmpty).filter
        fun l => !(pyStrip l).isEmpty).length

/-- Claim C10 as stated: on every non-blank line, the dispatched event's
source and message both carry no leading and no trailing whitespace. -/
def claimC10 : Prop :=
  ∀ raw : List Char,
    (pyStrip raw).isEmpty = false →
    noLeadWS (classifyLine raw).pkg = true ∧
    noTrailWS (classifyLine raw).pkg = true ∧
    noLeadWS (classifyLine raw).msg = true ∧
    noTrailWS (classifyLine raw).msg = true

/-- A concrete environment for witnesses and counterexamples. -/
def envA : Env := ⟨"regtest", 5000, 42⟩

/-- A wallet whose single exported root is `"x"`. -/
def walletX0 : Wallet := ⟨0, ["x"]⟩

/-- A distinct wallet object sharing the root `"x"` with `walletX0`. -/
def walletX1 : Wallet := ⟨1, ["x"]⟩

/-- A configuration with a saved single-server preference of `false`. -/
def cfgA : Config := ⟨some true, some false⟩

/-- A state whose free-form extra options hold a double space. -/
def stC9 : PluginState := { sampleSt [] "all" with custom_opt := some "x  y" }

theorem noTrailWS_cons (c : Char) (rest : List Char) (h : rest ≠ []) :
    noTrailWS (c :: rest) = noTrailWS rest := by
  cases rest with
  | nil => exact absurd rfl h
  | cons d ds => rfl

theorem noLeadWS_dropWhile (l : List Char) :
    noLeadWS (l.dropWhile isPySpace) = true := by
  induction l with
  | nil => rfl
  | cons c rest ih =>
    by_cases h : isPySpace c = true
    · rw [List.dropWhile_cons_of_pos h]; exact ih
    · rw [List.dropWhile_cons_of_neg h]
      simp only [noLeadWS]
      simp only [Bool.not_eq_true] at h
      simp [h]

theorem noTrailWS_dropTrailWS (l : List Char) :
    noTrailWS (dropTrailWS l) = true := by
  induction l with
  | nil => rfl
  | cons c rest ih =>
    simp only [dropTrailWS]
    cases hr : dropTrailWS rest with
    | nil =>
      by_cases h : isPySpace c = true
      · simp [h, noTrailWS]
      · simp only [Bool.not_eq_true] at h
        simp [h, noTrailWS]
    | cons d ds =>
      rw [noTrailWS_cons c (d :: ds) (by simp)]
      rw [hr] at ih
      exact ih

theorem dropTrailWS_head (c : Char) (rest : List Char) :
    dropTrailWS (c :: rest) = [] ∨
      ∃ r, dropTrailWS (c :: rest) = c :: r := by
  simp only [dropTrailWS]
  cases dropTrailWS rest with
  | nil =>
    by_cases h : isPySpace c = true
    · simp [h]
    · simp only [Bool.not_eq_true] at h
      simp [h]
  | cons d ds => exact Or.inr ⟨d :: ds, rfl⟩

theorem noLeadWS_pyStrip (l : List Char) : noLeadWS (pyStrip l) = true := by
  unfold pyStrip
  cases hm : l.dropWhile isPySpace with
  | nil => rfl
  | cons c rest =>
    have hl : noLeadWS (c :: rest) = true := by
      rw [← hm]; exact noLeadWS_dropWhile l
    rcases dropTrailWS_head c rest with h | ⟨r, h⟩
    · rw [h]; rfl
    · rw [h]
      simpa [noLeadWS] using hl

theorem noTrailWS_pyStrip (l : List Char) : noTrailWS (pyStrip l) = true :=
  noTrailWS_dropTrailWS _

theorem noTrailWS_drop (n : Nat) (l : List Char) (h : noTrailWS l = true) :
    noTrailWS (l.drop n) = true := by
  induction n generalizing l with
  | zero => exact h
  | succ m ih =>
    cases l with
    | nil => rfl
    | cons c rest =>
      rw [List.drop_succ_cons]
      apply ih
      cases hr : rest with
      | nil => rfl
      | cons d ds =>
        rw [hr] at h
        rw [← noTrailWS_cons c (d :: ds) (by simp)]
        exact h

theorem pyPartition_eq (sep : Char) (l : List Char) :
    pyPartition sep l =
      (l.takeWhile (fun c => !(c == sep)),
       (l.dropWhile (fun c => !(c == sep))).tail) := by
  induction l with
  | nil => rfl
  | cons c rest ih =>
    simp only [pyPartition]
    by_cases h : c == sep
    · simp [h, List.takeWhile_cons, List.dropWhile_cons]
    · simp only [h, if_false, ih]
      have h2 : (fun c => !(c == sep)) c = true := by simp [h]
      simp [List.takeWhile_cons, List.dropWhile_cons, h2]

theorem pySplitSp_nosp (a : List Char) (ha : a.all (fun c => !(c == ' ')) = true) :
    pySplitSp a = [a] := by
  induction a with
  | nil => rfl
  | cons c rest ih =>
    simp only [List.all_cons, Bool.and_eq_true] at ha
    simp only [pySplitSp]
    rw [ih ha.2]
    simp only [Bool.not_eq_true'] at ha
    simp [ha.1]

theorem pySplitSp_sep (a b : List Char) (ha : a.all (fun c => !(c == ' ')) = true) :
    pySplitSp (a ++ ' ' :: b) = a :: pySplitSp b := by
  induction a with
  | nil => simp [pySplitSp]
  | cons c rest ih =>
    simp only [List.all_cons, Bool.and_eq_true] at ha
    simp only [List.cons_append, pySplitSp, List.append_eq]
    rw [ih ha.2]
    simp only [Bool.not_eq_true'] at ha
    simp [ha.1]

theorem handoffs_foldl (evs : List PEvent) (st : SupState) :
    (evs.foldl stepEvent st).handoffs =
      st.handoffs + (evs.filter isReadyLog).length := by
  induction evs generalizing st with
  | nil => simp
  | cons e rest ih =>
    rw [List.foldl_cons, ih]
    cases e with
    | start => simp [stepEvent, isReadyLog, List.filter_cons]
    | log sg lv pk m =>
      by_cases h : rpcReadyMarker.isPrefixOf m = true
      · simp only [stepEvent, handle_log, h, if_true, isReadyLog,
          List.filter_cons, List.length_cons]
        omega
      · simp only [Bool.not_eq_true] at h
        simp [stepEvent, handle_log, isReadyLog, List.filter_cons, h]

/-- C1 (counterexample): the code does not implement the spec's
generation discipline.  On the trace `start; start; log(gen 1, marker);
log(gen 2, marker); log(gen 2, marker)` the code performs three handoffs
(`handle_log` calls `set_server` on every marker match, including the
straggler from superseded generation 1 and the repeat within generation
2), while the spec's machine performs one. -/
theorem claimC1_cex : ¬ claimC1 := by
  intro h
  have h2 := h [.start, .start, .log 1 [] [] rpcReadyMarker,
    .log 2 [] [] rpcReadyMarker, .log 2 [] [] rpcReadyMarker] (by decide)
  exact absurd h2 (by decide)

/-- C1 (amended): the readiness handoff is performed on *every* delivered
log event whose message starts with the readiness marker, regardless of
which generation delivered it and of how many handoffs already happened —
the total number of `set_server` invocations equals the number of
marker-matching log events in the trace. -/
theorem handoff_on_every_ready_event (evs : List PEvent) :
    (runEvents evs).handoffs = (evs.filter isReadyLog).length := by
  unfold runEvents
  rw [handoffs_foldl]
  simp

/-- C6: `start()` is a no-op when the feature is disabled or the wallet
set is empty — no process is spawned, no effect is emitted and the state
(including the process handle and `rpc_port`) is returned unchanged. -/
theorem start_noop_when_disabled_or_no_wallets (env : Env) (st : PluginState)
    (h : st.enabled = false ∨ st.wallets = []) : start env st = (st, []) := by
  unfold start
  rcases h with h | h
  · simp [h]
  · simp [h]

/-- Witness for C6: starting with zero wallets leaves the `Stopped` state
unchanged and emits no effect. -/
theorem start_noop_witness :
    (sampleSt [] "all").wallets = [] ∧
    start envA (sampleSt [] "all") = (sampleSt [] "all", []) :=
  ⟨rfl, start_noop_when_disabled_or_no_wallets envA (sampleSt [] "all")
    (Or.inr rfl)⟩

/-- C7: `close` always performs `stop()` (same resulting state and same
effects), and restores a saved single-server preference — including the
value `false` — clearing the saved slot, while writing neither key when no
preference was saved. -/
theorem close_restores_oneserver (st : PluginState) (cfg : Config) :
    (close st cfg).1 = (stop st).1 ∧
    (close st cfg).2.2 = (stop st).2 ∧
    (∀ b, cfg.bwt_was_oneserver = some b →
      (close st cfg).2.1 =
        { cfg with oneserver := some b, bwt_was_oneserver := none }) ∧
    (cfg.bwt_was_oneserver = none → (close st cfg).2.1 = cfg) := by
  cases hc : cfg.bwt_was_oneserver with
  | some b =>
    refine ⟨by simp [close, hc], by simp [close, hc], ?_, ?_⟩
    · intro b' hb'
      injection hb' with hbb
      subst hbb
      simp [close, hc]
    · intro hn
      exact Option.noConfusion hn
  | none =>
    refine ⟨by simp [close, hc], by simp [close, hc], ?_, by simp [close, hc]⟩
    intro b' hb'
    exact Option.noConfusion hb'

/-- Witness for C7: with a saved preference of `false`, teardown restores
`oneserver := false` and clears the saved slot. -/
theorem close_restores_oneserver_witness :
    (close (sampleSt [] "all") cfgA).2.1 =
      { oneserver := some false, bwt_was_oneserver := none } :=
  (close_restores_oneserver (sampleSt [] "all") cfgA).2.2.1 false rfl

/-- C8: unloading a wallet while others remain performs neither `stop()`
nor `start()`: no effect is emitted and the process handle (with the
argument vector it was spawned with) and the RPC port are unchanged; only
the wallet set shrinks. -/
theorem close_wallet_keeps_worker_when_nonempty (w : Wallet)
    (st : PluginState)
    (h : st.wallets.filter (fun v => !(v == w)) ≠ []) :
    close_wallet w st =
      ({ st with wallets := st.wallets.filter fun v => !(v == w) }, []) ∧
    (close_wallet w st).1.proc = st.proc ∧
    (close_wallet w st).1.rpc_port = st.rpc_port ∧
    (close_wallet w st).2 = [] := by
  have h1 : (st.wallets.filter fun v => !(v == w)).isEmpty = false := by
    simpa [List.isEmpty_eq_false] using h
  have h2 : close_wallet w st =
      ({ st with wallets := st.wallets.filter fun v => !(v == w) }, []) := by
    simp [close_wallet, h1]
  exact ⟨h2, by rw [h2], by rw [h2], by rw [h2]⟩

/-- Witness for C8: removing `walletX1` while `walletX0` remains leaves a
state with the same (absent) process handle and no effects. -/
theorem close_wallet_keeps_worker_witness :
    close_wallet walletX1 (sampleSt [walletX0, walletX1] "all") =
      (sampleSt [walletX0] "all", []) := by
  have h := (close_wallet_keeps_worker_when_nonempty walletX1
    (sampleSt [walletX0, walletX1] "all") (by decide)).1
  rw [h]
  decide

/-- C4 (counterexample): membership identity is the wallet *object*, not
the root string.  Loading the distinct wallet object `walletX1`, whose
only root `"x"` is already tracked through `walletX0`, changes the set and
triggers `start()` (a process is spawned), refuting the claim that
re-adding an already-present root is a no-op. -/
theorem claimC4_cex : ¬ claimC4 := by
  intro h
  have h2 := h envA (sampleSt [walletX0] "all") walletX1 (by decide) (by decide)
  exact absurd h2 (by decide)

/-- C4 (amended): for every "member loaded" notification, membership
identity is the wallet object: re-adding a wallet already in the set is a
no-op (no restart, no state change); adding a distinct wallet object
triggers `start()` on the grown set even when its root is already present;
wallets without master public keys are rejected without state change. -/
theorem load_wallet_object_identity (env : Env) (st : PluginState)
    (w : Wallet) :
    (w.mpks ≠ [] → w ∈ st.wallets → load_wallet env w st = (st, [])) ∧
    (w.mpks ≠ [] → w ∉ st.wallets →
      load_wallet env w st = start env { st with wallets := st.wallets ++ [w] }) ∧
    (w.mpks = [] → load_wallet env w st = (st, [])) := by
  refine ⟨?_, ?_, ?_⟩
  · intro hm hmem
    simp [load_wallet, hm, hmem]
  · intro hm hmem
    simp [load_wallet, hm, hmem]
  · intro hm
    simp [load_wallet, hm]

/-- Witness for C4 (amended): re-loading `walletX0` itself is a no-op. -/
theorem load_wallet_object_identity_witness :
    load_wallet envA walletX0 (sampleSt [walletX0] "all") =
      (sampleSt [walletX0] "all", []) :=
  (load_wallet_object_identity envA (sampleSt [walletX0] "all")
    walletX0).1 (by decide) (by decide)

/-- C5 (counterexample): a blank line is *not* ignored.  On the
single-line stream `" "` the code dispatches one event (an INFO event with
empty message), while the claim predicts zero events for blank lines. -/
theorem claimC5_cex : ¬ claimC5 := by
  intro h
  have h2 := h [[' ']]
  exact absurd h2 (by decide)

/-- C5 (amended): every line read before the end-of-stream sentinel is
dispatched, including blank ones; a non-empty raw line that strips to
empty is dispatched as an INFO event with source `bwt` and empty message.
Only the empty raw read (the sentinel ending the loop) produces no
event. -/
theorem blank_line_dispatched_as_info (l : List Char)
    (rest : List (List Char)) (h1 : l ≠ []) (h2 : pyStrip l = []) :
    procLogger (l :: rest) = classifyLine l :: procLogger rest ∧
    classifyLine l = ⟨"INFO".data, "bwt".data, []⟩ := by
  have he : l.isEmpty = false := by simpa [List.isEmpty_eq_false] using h1
  constructor
  · simp [procLogger, he]
  · simp only [classifyLine, h2]
    decide

/-- Witness for C5 (amended): the blank line `" "` is dispatched as
`(INFO, bwt, "")`. -/
theorem blank_line_dispatched_witness :
    procLogger [[' ']] = [⟨"INFO".data, "bwt".data, []⟩] := by
  have h := blank_line_dispatched_as_info [' '] [] (by decide) (by decide)
  rw [h.1, h.2]
  rfl

/-- C10 (counterexample): trimming does not hold across all three
branches.  The line `Error:  x` (double space) takes the error branch,
whose message is the raw remainder after the 7-character prefix: `" x"`,
which carries leading whitespace. -/
theorem claimC10_cex : ¬ claimC10 := by
  intro h
  have h2 := (h "Error:  x".data (by decide)).2.2.1
  exact absurd h2 (by decide)

/-- C10 (amended): on every line the dispatched source has no leading or
trailing whitespace and the dispatched message has no trailing whitespace;
the message also has no leading whitespace in the marker branch and in the
fallback branch, but in the error branch it is the unstripped remainder
after the 7-character `error: ` prefix and may carry leading
whitespace. -/
theorem classify_fields_trimming (raw : List Char) :
    (noLeadWS (classifyLine raw).pkg = true ∧
     noTrailWS (classifyLine raw).pkg = true ∧
     noTrailWS (classifyLine raw).msg = true) ∧
    ((hasSub "::".data (pyStrip raw) && (pyStrip raw).contains '>') = true →
      noLeadWS (classifyLine raw).msg = true) ∧
    (("error: ".data).isPrefixOf (pyLower (pyStrip raw)) = false →
      noLeadWS (classifyLine raw).msg = true) := by
  by_cases h1 : (hasSub "::".data (pyStrip raw) && (pyStrip raw).contains '>') = true
  · simp only [classifyLine, h1, if_true]
    exact ⟨⟨noLeadWS_pyStrip _, noTrailWS_pyStrip _, noTrailWS_pyStrip _⟩,
      fun _ => noLeadWS_pyStrip _, fun _ => noLeadWS_pyStrip _⟩
  · by_cases h2 : (("error: ".data).isPrefixOf (pyLower (pyStrip raw))) = true
    · simp only [classifyLine, h1, h2, if_true, Bool.false_eq_true, if_false]
      exact ⟨⟨by decide, by decide, noTrailWS_drop 7 _ (noTrailWS_pyStrip raw)⟩,
        fun hg => hg.elim, fun hg => nomatch hg⟩
    · simp only [classifyLine, h1, h2, Bool.false_eq_true, if_false]
      exact ⟨⟨by decide, by decide, noTrailWS_pyStrip _⟩,
        fun hg => hg.elim, fun _ => noLeadWS_pyStrip _⟩

/-- Witness for C10 (amended): on the marker-branch example line the
dispatched message has no leading whitespace. -/
theorem classify_fields_trimming_witness :
    noLeadWS (classifyLine exLine).msg = true :=
  (classify_fields_trimming exLine).2.1 (by decide)

/-- C2 (counterexample): the classifier does not discard a timestamp
segment.  On the claim's own example line the dispatched source is
`12:00:00 electrs_like::sync` — the text between the first space and the
`>`, timestamp included — not `electrs_like::sync`. -/
theorem claimC2_cex : ¬ claimC2 := by
  intro h
  have h2 := h exLine (by decide) (by decide)
  exact absurd h2 (by decide)

/-- C2 (amended): for every line with the `::` marker and a `>`
separator, the classifier splits off the level at the first space and
splits the whole remainder — any timestamp segment included — on the first
`>` into source and message, trimming level not at all (it is the first
space-free token of the already-stripped line) and source and message on
both sides. -/
theorem classify_marker_branch_eq (raw : List Char)
    (h1 : hasSub "::".data (pyStrip raw) = true)
    (h2 : (pyStrip raw).contains '>' = true) :
    classifyLine raw =
      ⟨(pyStrip raw).takeWhile (fun c => !(c == ' ')),
       pyStrip ((((pyStrip raw).dropWhile fun c => !(c == ' ')).tail).takeWhile
         fun c => !(c == '>')),
       pyStrip ((((pyStrip raw).dropWhile fun c => !(c == ' ')).tail.dropWhile
         fun c => !(c == '>')).tail)⟩ := by
  simp only [classifyLine, h1, h2, Bool.and_self, if_true, pyPartition_eq]

/-- Witness for C2 (amended): the example line classifies with source
`12:00:00 electrs_like::sync` and message `synced to height 100`. -/
theorem classify_marker_branch_eq_witness :
    classifyLine exLine =
      ⟨"DBG".data, "12:00:00 electrs_like::sync".data,
       "synced to height 100".data⟩ := by
  have h := classify_marker_branch_eq exLine (by decide) (by decide)
  rw [h]
  decide

theorem addr_ne_xpub (s : String) : ("127.0.0.1:" ++ s) ≠ "--xpub" := by
  intro h
  have h2 : ("127.0.0.1:" ++ s).data.head? = some '-' := by rw [h]; rfl
  rw [String.data_append] at h2
  have h3 : ("127.0.0.1:".data ++ s.data).head? = some '1' := rfl
  rw [h3] at h2
  injection h2 with h4
  exact absurd h4 (by decide)

theorem val_ne_xpub (x r : String) : (x ++ ":" ++ r) ≠ "--xpub" := by
  intro h
  have hm : ':' ∈ (x ++ ":" ++ r).data := by
    rw [String.data_append, String.data_append]
    exact List.mem_append.mpr (Or.inl (List.mem_append.mpr (Or.inr (by decide))))
  rw [h] at hm
  exact absurd hm (by decide)

theorem count_xpub_pairs (ws : List Wallet) (r : String) :
    List.count "--xpub"
      (ws.flatMap fun w => w.mpks.flatMap fun x => ["--xpub", x ++ ":" ++ r]) =
    (ws.map fun w => w.mpks.length).sum := by
  induction ws with
  | nil => rfl
  | cons w rest ih =>
    rw [List.flatMap_cons, List.count_append, ih, List.map_cons, List.sum_cons]
    have hw : List.count "--xpub"
        (w.mpks.flatMap fun x => ["--xpub", x ++ ":" ++ r]) = w.mpks.length := by
      induction w.mpks with
      | nil => rfl
      | cons x xs ihx =>
        rw [List.flatMap_cons, List.count_append, ihx]
        simp only [List.count_cons, List.count_nil, beq_iff_eq,
          val_ne_xpub x r, if_false, if_true, List.length_cons]
        simp [val_ne_xpub x r]
        omega
    omega

/-- C3 (counterexample): the flag count follows (wallet, root) pairs, not
the deduplicated root set.  With two distinct wallets both exporting the
root `"x"`, the set `S` of key-material groups has one element but the
argument vector carries two `--xpub` flags — the shared root appears
twice. -/
theorem claimC3_cex : ¬ claimC3 := by
  intro h
  have h2 := (h [walletX0, walletX1] "all" 3).1
  exact absurd h2 (by decide)

/-- C3 (amended): with no free-form extra options and no optional flags
configured (and no configured string colliding with the literal
`--xpub`), the argument vector carries exactly one `--xpub` flag per
(wallet, exported root) pair — a root shared by several wallets appears
once per wallet — and every pair's `<root>:<rescanPolicy>` value occurs in
the vector. -/
theorem xpub_flags_per_wallet_root_pair (net : String) (st : PluginState)
    (port : Nat) (hnet : net ≠ "--xpub") (hurl : st.bitcoind_url ≠ "--xpub")
    (hdir : st.bitcoind_dir ≠ "--xpub") (hcred : st.bitcoind_cred = none)
    (hbw : st.bitcoind_wallet = none) (hsp : st.socket_path = none)
    (hcust : st.custom_opt = none) :
    List.count "--xpub" (buildArgs net st port) =
      (st.wallets.map fun w => w.mpks.length).sum ∧
    ∀ w ∈ st.wallets, ∀ x ∈ w.mpks,
      (x ++ ":" ++ st.rescan_since) ∈ buildArgs net st port := by
  have hb : buildArgs net st port =
      ["--network", net, "--bitcoind-url", st.bitcoind_url,
       "--bitcoind-dir", st.bitcoind_dir,
       "--electrum-rpc-addr", "127.0.0.1:" ++ toString port] ++
      (st.wallets.flatMap fun w =>
        w.mpks.flatMap fun x => ["--xpub", x ++ ":" ++ st.rescan_since]) ++
      List.replicate st.verbose "-v" := by
    simp [buildArgs, hcred, hbw, hsp, hcust, pyTruthy]
  constructor
  · rw [hb, List.count_append, List.count_append, count_xpub_pairs]
    have h1 : List.count "--xpub"
        ["--network", net, "--bitcoind-url", st.bitcoind_url,
         "--bitcoind-dir", st.bitcoind_dir,
         "--electrum-rpc-addr", "127.0.0.1:" ++ toString port] = 0 := by
      simp [List.count_cons, beq_iff_eq, hnet, hurl, hdir, addr_ne_xpub]
    have h2 : List.count "--xpub" (List.replicate st.verbose "-v") = 0 := by
      simp [List.count_replicate]
    omega
  · intro w hw x hx
    rw [hb]
    refine List.mem_append.mpr (Or.inl (List.mem_append.mpr (Or.inr ?_)))
    exact List.mem_flatMap.mpr ⟨w, hw, List.mem_flatMap.mpr ⟨x, hx, by simp⟩⟩

/-- Witness for C3 (amended): two wallets sharing the root `"x"` yield two
`--xpub` flags. -/
theorem xpub_flags_witness :
    List.count "--xpub"
      (buildArgs "regtest" (sampleSt [walletX0, walletX1] "all") 3) = 2 :=
  (xpub_flags_per_wallet_root_pair "regtest"
    (sampleSt [walletX0, walletX1] "all") 3 (by decide) (by decide)
    (by decide) rfl rfl rfl rfl).1.trans (by decide)

theorem pySplitSp_ne_nil (m : List Char) : pySplitSp m ≠ [] := by
  cases m with
  | nil => simp [pySplitSp]
  | cons c rest =>
    simp only [pySplitSp]
    by_cases h : (c == ' ') = true
    · simp [h]
    · simp only [h, Bool.false_eq_true, if_false]
      cases pySplitSp rest <;> simp

theorem pySplitSp_lead (ys : List Char) : [] ∈ pySplitSp (' ' :: ys) := by
  simp [pySplitSp]

theorem pySplitSp_tail_double (xs ys : List Char) :
    [] ∈ (pySplitSp (xs ++ ' ' :: ' ' :: ys)).tail := by
  induction xs with
  | nil => simp [pySplitSp]
  | cons c xs ih =>
    simp only [List.cons_append, pySplitSp]
    by_cases h : (c == ' ') = true
    · simp only [h, if_true, List.tail_cons]
      exact List.mem_of_mem_tail ih
    · simp only [h, Bool.false_eq_true, if_false]
      cases hr : pySplitSp (xs ++ ' ' :: ' ' :: ys) with
      | nil => exact absurd hr (pySplitSp_ne_nil _)
      | cons t ts =>
        simp only [List.tail_cons]
        rw [hr] at ih
        simpa using ih

theorem pySplitSp_tail_trail (xs : List Char) :
    [] ∈ (pySplitSp (xs ++ [' '])).tail := by
  induction xs with
  | nil => simp [pySplitSp]
  | cons c xs ih =>
    simp only [List.cons_append, pySplitSp]
    by_cases h : (c == ' ') = true
    · simp only [h, if_true, List.tail_cons]
      exact List.mem_of_mem_tail ih
    · simp only [h, Bool.false_eq_true, if_false]
      cases hr : pySplitSp (xs ++ [' ']) with
      | nil => exact absurd hr (pySplitSp_ne_nil _)
      | cons t ts =>
        simp only [List.tail_cons]
        rw [hr] at ih
        simpa using ih

/-- C9: for every free-form extra-options string containing consecutive
spaces anywhere, or a leading space, or a trailing space, splitting it on
single spaces yields empty-string tokens, and the whole token list —
empty strings included — is appended verbatim to the argument vector, so
the empty string is an element of the argument vector. -/
theorem custom_opt_empty_tokens_appended (net : String) (st : PluginState)
    (port : Nat) (s : String) (hc : st.custom_opt = some s)
    (hs : (∃ xs ys, s.data = xs ++ ' ' :: ' ' :: ys) ∨
          (∃ ys, s.data = ' ' :: ys) ∨
          (∃ xs, s.data = xs ++ [' '])) :
    buildArgs net st port =
      buildArgs net { st with custom_opt := none } port ++ pySplit s ∧
    "" ∈ pySplit s ∧
    "" ∈ buildArgs net st port := by
  have hne : s.data ≠ [] := by
    rcases hs with ⟨xs, ys, h⟩ | ⟨ys, h⟩ | ⟨xs, h⟩ <;> rw [h] <;> simp
  have h2 : s.data.isEmpty = false := by
    simpa [List.isEmpty_eq_false] using hne
  have ht : pyTruthy (some s) = true := by
    simp [pyTruthy, h2]
  have hmem : [] ∈ pySplitSp s.data := by
    rcases hs with ⟨xs, ys, h⟩ | ⟨ys, h⟩ | ⟨xs, h⟩
    · rw [h]; exact List.mem_of_mem_tail (pySplitSp_tail_double xs ys)
    · rw [h]; exact pySplitSp_lead ys
    · rw [h]; exact List.mem_of_mem_tail (pySplitSp_tail_trail xs)
  have hmem2 : "" ∈ pySplit s := by
    unfold pySplit
    exact List.mem_map.mpr ⟨[], hmem, rfl⟩
  have hargs : buildArgs net st port =
      buildArgs net { st with custom_opt := none } port ++ pySplit s := by
    simp [buildArgs, hc, ht, pyTruthy]
    intro h
    exact absurd h hne
  exact ⟨hargs, hmem2, by
    rw [hargs]; exact List.mem_append.mpr (Or.inr hmem2)⟩

/-- Witness for C9: with extra options `"x  y"` (a double space), the
empty string is an element of the argument vector. -/
theorem custom_opt_empty_tokens_witness :
    "" ∈ buildArgs "regtest" stC9 7 :=
  (custom_opt_empty_tokens_appended "regtest" stC9 7 "x  y" rfl
    (Or.inl ⟨['x'], ['y'], by decide⟩)).2.2

end Bwt
